import Mathlib

/-! Shallow embedding of `automatic_annotation.py`: a three-stage pipeline that
extracts gene symbols from a Seurat cluster CSV, annotates them from a
tab-separated reference expression table, and merges the results into a TSV.
File contents are modelled as lists of lines; Python exceptions (IndexError,
ValueError) are modelled with `Except Unit`; Python floats are modelled as
exact rationals via a decimal parser covering the numeric literals this
pipeline reads. -/

/-- Rebuild a string from a list of characters. -/
def ofChars (cs : List Char) : String := ⟨cs⟩

/-- Split a character list at every occurrence of `c`, like Python `str.split(c)`. -/
def splitOnChar (c : Char) : List Char → List (List Char)
  | [] => [[]]
  | x :: xs =>
    match splitOnChar c xs with
    | [] => [[]]
    | a :: as => if x = c then [] :: a :: as else (x :: a) :: as

/-- Python `s.split(c)` on a Lean string. -/
def pySplit (c : Char) (s : String) : List String := (splitOnChar c s.data).map ofChars

/-- Python `s.strip(chr(10))`: remove leading and trailing newline characters. -/
def pyStripNL (s : String) : String :=
  ofChars (((s.data.dropWhile (fun ch => ch = '\n')).reverse.dropWhile (fun ch => ch = '\n')).reverse)

/-- Python `s.upper()` (ASCII, as used for gene symbols). -/
def pyUpper (s : String) : String := ofChars (s.data.map Char.toUpper)

/-- Python `s.replace('.', ',')` used for the spreadsheet export (source line 40). -/
def pyCommas (s : String) : String := ofChars (s.data.map (fun ch => if ch = '.' then ',' else ch))

/-- Join fields with tab characters, as `csv.writer(..., delimiter = tab)` writes
a row of fields free of quoting-relevant characters. -/
def tabJoin (row : List String) : String := ofChars (List.intercalate ['\t'] (row.map String.data))

/-- Python `elm.startswith(chr(34))`. -/
def startsWithQ (s : String) : Bool :=
  match s.data with
  | [] => false
  | c :: _ => c == '\x22'

/-- Python `elm.endswith(chr(34))`. -/
def endsWithQ (s : String) : Bool :=
  match s.data.getLast? with
  | none => false
  | some c => c == '\x22'

/-- Python `elm[1:-1] if elm.startswith(q) and elm.endswith(q) else elm`
(source lines 14 and 35): drop the first and last character when the field
both starts and ends with a double quote. -/
def stripQuote (s : String) : String :=
  if startsWithQ s && endsWithQ s then ofChars ((s.data.drop 1).dropLast) else s

/-- Quote-strip every field of a row (applied in the extractor and, again, in the merge). -/
def stripRow (line : List String) : List String := line.map stripQuote

/-- Numeric value of a digit string. -/
def digitsVal (cs : List Char) : Nat := cs.foldl (fun a c => a * 10 + (c.toNat - 48)) 0

/-- Decimal forms accepted by Python `float` for the fields this pipeline reads:
`digits`, `digits.digits`, `digits.` or `.digits`. Returns the exact rational
value; any other string yields `none`, modelling an uncaught `ValueError`. -/
def parseUnsigned (cs : List Char) : Option ℚ :=
  match splitOnChar '.' cs with
  | [ip] => if !ip.isEmpty && ip.all Char.isDigit then some (mkRat (digitsVal ip) 1) else none
  | [ip, fp] =>
    if (!ip.isEmpty || !fp.isEmpty) && ip.all Char.isDigit && fp.all Char.isDigit then
      some (mkRat (digitsVal ip * 10 ^ fp.length + digitsVal fp) (10 ^ fp.length))
    else none
  | _ => none

/-- Python `float(s)` on the decimal literals this pipeline reads, with an
optional leading sign. -/
def parseFloat (s : String) : Option ℚ :=
  match s.data with
  | '-' :: r => (parseUnsigned r).map (fun q => -q)
  | '+' :: r => parseUnsigned r
  | r => parseUnsigned r

/-- Gene extraction loop (source lines 13-15): strip quotes from each field of
the row and take field 7; a row with fewer than 8 fields raises IndexError. -/
def extractGenes : List (List String) → Except Unit (List String)
  | [] => .ok []
  | line :: rest =>
    match (stripRow line).get? 7 with
    | none => .error ()
    | some g =>
      match extractGenes rest with
      | .error e => .error e
      | .ok gs => .ok (g :: gs)

/-- Parsed rows of the cluster CSV: each line newline-stripped and split on
commas, header line discarded (source line 12). -/
def clusterContent (lines : List String) : List (List String) :=
  (lines.map (fun x => pySplit ',' (pyStripNL x))).drop 1

/-- `extract_from_seurat` (source lines 9-16), the file given as its list of
lines: the gene symbols (stripped field 7 of each data row) together with the
unstripped parsed rows. -/
def extract_from_seurat (lines : List String) : Except Unit (List String × List (List String)) :=
  match extractGenes (clusterContent lines) with
  | .error e => .error e
  | .ok gs => .ok (gs, clusterContent lines)

/-- Parsed rows of the reference table: tab-split, header discarded (source line 21). -/
def refContent (lines : List String) : List (List String) :=
  (lines.map (fun x => pySplit '\t' (pyStripNL x))).drop 1

/-- One reference row processed for one gene (source lines 26-27):
`if gene_upper == line[1] and float(line[3]) >= 1: append([gene, line[2], line[3]])`,
with Python's evaluation order: the float conversion is short-circuited when
the gene does not match. -/
def annotLine (gu g : String) (line : List String) : Except Unit (List (List String)) :=
  match line.get? 1 with
  | none => .error ()
  | some f1 =>
    if gu = f1 then
      match line.get? 3 with
      | none => .error ()
      | some f3 =>
        match parseFloat f3 with
        | none => .error ()
        | some q =>
          if 1 ≤ q then
            match line.get? 2 with
            | none => .error ()
            | some f2 => .ok [[g, f2, f3]]
          else .ok []
    else .ok []

/-- Inner scan of the whole reference table for one gene (source lines 25-27). -/
def annotRows (gu g : String) : List (List String) → Except Unit (List (List String))
  | [] => .ok []
  | line :: rest =>
    match annotLine gu g line with
    | .error e => .error e
    | .ok r =>
      match annotRows gu g rest with
      | .error e => .error e
      | .ok rs => .ok (r ++ rs)

/-- Outer loop over the gene list (source lines 23-27); each gene is
upper-cased once before the scan. -/
def annotGenes (content : List (List String)) : List String → Except Unit (List (List String))
  | [] => .ok []
  | g :: gs =>
    match annotRows (pyUpper g) g content with
    | .error e => .error e
    | .ok r =>
      match annotGenes content gs with
      | .error e => .error e
      | .ok rs => .ok (r ++ rs)

/-- `gene_annotation` (source lines 19-28), the reference file given as its
list of lines. -/
def gene_annotation (lines : List String) (gene_list : List String) : Except Unit (List (List String)) :=
  annotGenes (refContent lines) gene_list

/-- A row of `final_list` (source line 38): cluster id, gene, p-value, cell
type, and the expression string parsed as a number. -/
structure MergedRow where
  cluster : String
  gene : String
  pvalue : String
  cellType : String
  nTPM : ℚ
deriving DecidableEq

/-- Inner loop of the merge for one already quote-stripped cluster row
(source lines 36-40), producing this row's entries of `final_list` and of
`final_list_excel_version`, in Python's evaluation order (`line[7]` is indexed
before `gene[0]`, and only a match forces the remaining fields). -/
def mergeGenes (line2 : List String) : List (List String) → Except Unit (List MergedRow × List (List String))
  | [] => .ok ([], [])
  | a :: rest =>
    match line2.get? 7 with
    | none => .error ()
    | some g7 =>
      match a.get? 0 with
      | none => .error ()
      | some a0 =>
        if g7 = a0 then
          match line2.get? 6, line2.get? 5, a.get? 1, a.get? 2 with
          | some c6, some c5, some a1, some a2 =>
            match parseFloat a2 with
            | none => .error ()
            | some q =>
              match mergeGenes line2 rest with
              | .error e => .error e
              | .ok (ms, es) =>
                .ok (⟨c6, g7, c5, a1, q⟩ :: ms, [c6, g7, c5, a1, pyCommas a2] :: es)
          | _, _, _, _ => .error ()
        else mergeGenes line2 rest

/-- `i_m_annotating` (source lines 31-44): strips every field of every cluster
row and joins the row against the annotation list; returns the pair
`(final_list, final_list_excel_version)`; only the excel version is written
to the output file. -/
def i_m_annotating (annots : List (List String)) : List (List String) → Except Unit (List MergedRow × List (List String))
  | [] => .ok ([], [])
  | row :: rest =>
    match mergeGenes (stripRow row) annots with
    | .error e => .error e
    | .ok (ms, es) =>
      match i_m_annotating annots rest with
      | .error e => .error e
      | .ok p => .ok (ms ++ p.1, es ++ p.2)

/-- The `__main__` pipeline (source lines 47-55), the two input files given as
their lines. -/
def pipeline (clusterLines refLines : List String) : Except Unit (List MergedRow × List (List String)) :=
  match extract_from_seurat clusterLines with
  | .error e => .error e
  | .ok (genes, allRows) =>
    match gene_annotation refLines genes with
    | .error e => .error e
    | .ok annots => i_m_annotating annots allRows

/-- The lines written to `genes_per_cluster_w_cell_type.tsv`: the excel-version
rows, tab-joined (source lines 42-44). -/
def outputLines (clusterLines refLines : List String) : Except Unit (List String) :=
  match pipeline clusterLines refLines with
  | .error e => .error e
  | .ok p => .ok (p.2.map tabJoin)

/-- A reference row qualifies for the upper-cased gene `gu` when its gene
field (index 1) equals `gu` and its expression field (index 3) parses to a
value of at least 1. -/
def qualRow (gu : String) (row : List String) : Bool :=
  match row.get? 1 with
  | none => false
  | some f1 =>
    if gu = f1 then
      match row.get? 3 with
      | none => false
      | some f3 =>
        match parseFloat f3 with
        | none => false
        | some q => decide (1 ≤ q)
    else false

/-- The triple a single reference row contributes for a gene, when it
qualifies. -/
def qualTriple (gu g : String) (row : List String) : Option (List String) :=
  if qualRow gu row then some [g, row.getD 2 "", row.getD 3 ""] else none

/-- The annotation rows one gene contributes: one triple per qualifying
reference row, in table order. -/
def annotBlock (g : String) (content : List (List String)) : List (List String) :=
  content.filterMap (qualTriple (pyUpper g) g)

/-- The merge-join test (source line 37): stripped field 7 of the cluster row
equals the annotation row's stored gene. -/
def mergeMatch (line2 a : List String) : Bool :=
  match line2.get? 7, a.get? 0 with
  | some x, some y => x == y
  | _, _ => false

/-- The merged row built from a stripped cluster row and a matching
annotation row. -/
def mkMerged (line2 a : List String) : MergedRow :=
  ⟨line2.getD 6 "", line2.getD 7 "", line2.getD 5 "", a.getD 1 "", (parseFloat (a.getD 2 "")).getD 0⟩

/-- The merged row a single annotation row contributes against one stripped
cluster row, when the join test succeeds. -/
def mergeSel (line2 a : List String) : Option MergedRow :=
  if mergeMatch line2 a then some (mkMerged line2 a) else none

/-- Cluster file of the small e2e example: header plus two data rows whose
stripped field 7 is BRCA1 (p-values at field 5, cluster ids at field 6). -/
def c2cluster : List String :=
  ["h",
   "\"1\",\"c1\",\"a\",\"b\",\"c\",\"0.01\",\"cl1\",\"BRCA1\"",
   "\"2\",\"c2\",\"a\",\"b\",\"c\",\"0.02\",\"cl2\",\"BRCA1\""]

/-- Reference table with three qualifying rows for BRCA1, three distinct
cell types, and no other gene. -/
def c2ref : List String :=
  ["h", "x\tBRCA1\tct1\t2.0", "x\tBRCA1\tct2\t1.5", "x\tBRCA1\tct3\t3.25"]

/-- Cluster file of the end-to-end example of the spec, section 8. -/
def c7cluster : List String :=
  ["h", "\"1\",\"c1\",\"a\",\"b\",\"c\",\"0.01\",\"clusterA\",\"BRCA1\""]

/-- Reference file of the end-to-end example of the spec, section 8. -/
def c7ref : List String := ["h", "x\tBRCA1\tT-cell\t2.5"]

theorem annotLine_ok (gu g : String) (row : List String) (l : List (List String))
    (h : annotLine gu g row = .ok l) :
    l = (qualTriple gu g row).toList := by
  unfold annotLine at h
  unfold qualTriple qualRow
  repeat' split at h
  all_goals try simp_all
  all_goals (rename_i hlt; rw [if_neg (not_le.mpr hlt)]; simp_all)

theorem annotRows_ok (gu g : String) (content : List (List String)) (l : List (List String))
    (h : annotRows gu g content = .ok l) :
    l = content.filterMap (qualTriple gu g) := by
  induction content generalizing l with
  | nil =>
    simp only [annotRows] at h
    cases h
    simp
  | cons row rest ih =>
    unfold annotRows at h
    cases hline : annotLine gu g row with
    | error e => rw [hline] at h; cases h
    | ok r =>
      rw [hline] at h
      cases hrest : annotRows gu g rest with
      | error e => rw [hrest] at h; cases h
      | ok rs =>
        rw [hrest] at h
        cases h
        have hr := annotLine_ok gu g row r hline
        have hrs := ih rs hrest
        subst hr hrs
        cases hq : qualTriple gu g row <;> simp [List.filterMap_cons, hq]

theorem annotGenes_ok (content : List (List String)) (gl : List String) (l : List (List String))
    (h : annotGenes content gl = .ok l) :
    l = (gl.map (fun g => annotBlock g content)).flatten := by
  induction gl generalizing l with
  | nil =>
    simp only [annotGenes] at h
    cases h
    simp
  | cons g gs ih =>
    unfold annotGenes at h
    cases hg : annotRows (pyUpper g) g content with
    | error e => rw [hg] at h; cases h
    | ok r =>
      rw [hg] at h
      cases hgs : annotGenes content gs with
      | error e => rw [hgs] at h; cases h
      | ok rs =>
        rw [hgs] at h
        cases h
        have hr := annotRows_ok (pyUpper g) g content r hg
        have hrs := ih rs hgs
        subst hr hrs
        simp [annotBlock]

theorem mergeGenes_ok (line2 : List String) (annots : List (List String)) (ms : List MergedRow)
    (es : List (List String)) (h : mergeGenes line2 annots = .ok (ms, es)) :
    ms = annots.filterMap (mergeSel line2) := by
  induction annots generalizing ms es with
  | nil =>
    simp only [mergeGenes] at h
    simp_all
  | cons a rest ih =>
    unfold mergeGenes at h
    repeat' split at h
    all_goals try (cases h)
    all_goals simp_all [mergeSel, mergeMatch, mkMerged, List.filterMap_cons]

theorem merge_ok (annots clusters : List (List String)) (ms : List MergedRow)
    (es : List (List String)) (h : i_m_annotating annots clusters = .ok (ms, es)) :
    ms = (clusters.map (fun row => annots.filterMap (mergeSel (stripRow row)))).flatten := by
  induction clusters generalizing ms es with
  | nil =>
    simp only [i_m_annotating] at h
    simp_all
  | cons row rest ih =>
    unfold i_m_annotating at h
    cases hrow : mergeGenes (stripRow row) annots with
    | error e => rw [hrow] at h; cases h
    | ok p =>
      rw [hrow] at h
      cases hrest : i_m_annotating annots rest with
      | error e => rw [hrest] at h; cases h
      | ok p2 =>
        rw [hrest] at h
        cases h
        have h1 := mergeGenes_ok (stripRow row) annots p.1 p.2 (by rw [hrow])
        have h2 := ih p2.1 p2.2 (by rw [hrest])
        simp [h1, h2]

theorem extractGenes_ok (rows : List (List String)) (gs : List String)
    (h : extractGenes rows = .ok gs) :
    gs = rows.map (fun r => (stripRow r).getD 7 "") ∧ ∀ r ∈ rows, 7 < r.length := by
  induction rows generalizing gs with
  | nil =>
    simp only [extractGenes] at h
    cases h
    simp
  | cons r rest ih =>
    unfold extractGenes at h
    cases h7 : (stripRow r).get? 7 with
    | none => rw [h7] at h; cases h
    | some g =>
      rw [h7] at h
      cases hrest : extractGenes rest with
      | error e => rw [hrest] at h; cases h
      | ok gs2 =>
        rw [hrest] at h
        cases h
        obtain ⟨ih1, ih2⟩ := ih gs2 hrest
        have hlen : 7 < r.length := by
          have := List.get?_eq_some.mp h7
          simpa [stripRow] using this.1
        refine ⟨?_, ?_⟩
        · have hgd : (stripRow r).getD 7 "" = g := by
            rw [List.getD_eq_getElem?_getD, ← List.get?_eq_getElem?, h7]; rfl
          rw [List.map_cons, hgd, ← ih1]
        · intro x hx
          rw [List.mem_cons] at hx
          rcases hx with hx | hx
          · subst hx; exact hlen
          · exact ih2 x hx

theorem qualRow_spec (gu : String) (row : List String) (h : qualRow gu row = true) :
    ∃ f3 q, row.get? 1 = some gu ∧ row.get? 3 = some f3 ∧ parseFloat f3 = some q ∧ 1 ≤ q := by
  unfold qualRow at h
  repeat' split at h
  all_goals simp_all

theorem qualRow_false_of (gu : String) (row : List String) (h : row.get? 1 ≠ some gu) :
    qualRow gu row = false := by
  unfold qualRow
  repeat' split
  all_goals simp_all

theorem annotBlock_mem (g : String) (content : List (List String)) (a : List String)
    (ha : a ∈ annotBlock g content) :
    a.get? 0 = some g ∧ ∃ q, parseFloat (a.getD 2 "") = some q ∧ 1 ≤ q := by
  unfold annotBlock at ha
  rw [List.mem_filterMap] at ha
  obtain ⟨row, _, hrow⟩ := ha
  unfold qualTriple at hrow
  split at hrow
  · rename_i hq
    injection hrow with hrow
    obtain ⟨f3, q, _, h3, hp, hq1⟩ := qualRow_spec _ row hq
    have hgd : row.getD 3 "" = f3 := by
      rw [List.getD_eq_getElem?_getD, ← List.get?_eq_getElem?, h3]; rfl
    subst hrow
    refine ⟨rfl, q, ?_, hq1⟩
    have h2 : ([g, row.getD 2 "", row.getD 3 ""] : List String).getD 2 "" = row.getD 3 "" := rfl
    rw [h2, hgd]
    exact hp
  · cases hrow

theorem annotBlock_length (g : String) (content : List (List String)) :
    (annotBlock g content).length = content.countP (qualRow (pyUpper g)) := by
  unfold annotBlock
  induction content with
  | nil => rfl
  | cons row rest ih =>
    rw [List.filterMap_cons, List.countP_cons]
    cases hq : qualRow (pyUpper g) row <;> simp [qualTriple, hq, ih]

theorem annotBlock_nil (g' : String) (content : List (List String))
    (h : ∀ row ∈ content, row.get? 1 ≠ some (pyUpper g')) :
    annotBlock g' content = [] := by
  unfold annotBlock
  rw [List.filterMap_eq_nil_iff]
  intro row hrow
  simp [qualTriple, qualRow_false_of _ _ (h row hrow)]

theorem sum_map_ite {α : Type} (L : List α) (p : α → Bool) (k : Nat) :
    (L.map (fun a => if p a then k else 0)).sum = k * L.countP p := by
  induction L with
  | nil => simp
  | cons a t ih =>
    rw [List.map_cons, List.sum_cons, List.countP_cons, ih]
    cases hp : p a
    · simp [hp]
    · simp [hp]
      ring

theorem mergeSel_eq (line2 a : List String) (g : String) (ha : a.get? 0 = some g) :
    mergeSel line2 a = if line2.get? 7 = some g then some (mkMerged line2 a) else none := by
  unfold mergeSel mergeMatch
  rw [ha]
  cases h7 : line2.get? 7 with
  | none => simp
  | some x => by_cases hx : x = g <;> simp [hx]

theorem filterMap_mergeSel_length (line2 : List String) (annots : List (List String)) (g : String)
    (hall : ∀ a ∈ annots, a.get? 0 = some g) :
    (annots.filterMap (mergeSel line2)).length = if line2.get? 7 = some g then annots.length else 0 := by
  induction annots with
  | nil => simp
  | cons a t ih =>
    have ha := hall a (by simp)
    have iht := ih (fun x hx => hall x (by simp [hx]))
    rw [List.filterMap_cons, mergeSel_eq line2 a g ha]
    by_cases h7 : line2.get? 7 = some g
    · rw [List.get?_eq_getElem?] at h7 iht
      simp [h7, iht]
    · rw [List.get?_eq_getElem?] at h7 iht
      simp [h7, iht]

theorem get?_eq_some_getD (l : List String) (n : Nat) (h : n < l.length) :
    l.get? n = some (l.getD n "") := by
  rw [List.getD_eq_getElem?_getD, ← List.get?_eq_getElem?]
  cases hg : l.get? n with
  | none =>
    rw [List.get?_eq_none] at hg
    omega
  | some x => rfl

theorem extract_ok (lines : List String) (genes : List String) (allRows : List (List String))
    (h : extract_from_seurat lines = .ok (genes, allRows)) :
    allRows = clusterContent lines ∧ genes = allRows.map (fun r => (stripRow r).getD 7 "") ∧
    ∀ r ∈ allRows, 7 < r.length := by
  unfold extract_from_seurat at h
  cases hg : extractGenes (clusterContent lines) with
  | error e => rw [hg] at h; cases h
  | ok gs =>
    rw [hg] at h
    cases h
    obtain ⟨h1, h2⟩ := extractGenes_ok _ _ hg
    exact ⟨rfl, h1, h2⟩


theorem extractGenes_total (rows : List (List String)) (h : ∀ r ∈ rows, 7 < r.length) :
    extractGenes rows = .ok (rows.map (fun r => (stripRow r).getD 7 "")) := by
  induction rows with
  | nil => rfl
  | cons r rest ih =>
    unfold extractGenes
    have h7 : (stripRow r).get? 7 = some ((stripRow r).getD 7 "") := by
      apply get?_eq_some_getD
      have := h r (by simp)
      simpa [stripRow]
    rw [h7, ih (fun x hx => h x (by simp [hx]))]
    rfl

theorem stripQuote_wrap (t : String) : stripQuote ("\"" ++ t ++ "\"") = t := by
  cases t with
  | mk d =>
    show stripQuote ⟨'\x22' :: (d ++ ['\x22'])⟩ = ⟨d⟩
    have h2 : endsWithQ ⟨'\x22' :: (d ++ ['\x22'])⟩ = true := by
      unfold endsWithQ
      rw [show ('\x22' :: (d ++ ['\x22'])) = (('\x22' :: d) ++ ['\x22']) from
        (List.cons_append '\x22' d ['\x22']).symm]
      rw [List.getLast?_concat]
      simp
    have h3 : ((('\x22' :: (d ++ ['\x22'])).drop 1).dropLast) = d := by
      show (d ++ ['\x22']).dropLast = d
      exact List.dropLast_concat
    unfold stripQuote
    rw [show startsWithQ ⟨'\x22' :: (d ++ ['\x22'])⟩ = true from rfl, h2]
    show ofChars ((('\x22' :: (d ++ ['\x22'])).drop 1).dropLast) = ⟨d⟩
    rw [h3]
    rfl

/-- C1, counterexample: the reference entry whose gene field is brca1 does not
match the input cluster gene BRCA1, although the expression 2.5 passes the
threshold, so the annotator returns no row for it. -/
theorem C1_counterexample :
    gene_annotation ["h", "x\tbrca1\tT-cell\t2.5"] ["BRCA1"] = .ok [] ∧
    parseFloat "2.5" = some (mkRat 5 2) ∧ (1 : ℚ) ≤ mkRat 5 2 :=
  ⟨rfl, rfl, by decide⟩

/-- C1 (amended): gene matching is one-sided case normalization: the input
gene is upper-cased and compared, by exact string equality, against the
reference row's gene field as stored; a reference row whose expression passes
the threshold produces a row precisely when the upper-cased input equals its
gene field (so reference BRCA1 matches input brca1, but reference brca1 does
not match input BRCA1). -/
theorem C1_match_rule (g f0 f1 f2 f3 : String) (q : ℚ) (hp : parseFloat f3 = some q)
    (hq : 1 ≤ q) :
    annotRows (pyUpper g) g [[f0, f1, f2, f3]] =
      .ok (if pyUpper g = f1 then [[g, f2, f3]] else []) := by
  by_cases hg : pyUpper g = f1
  · simp [annotRows, annotLine, hg, hp, hq]
  · simp [annotRows, annotLine, hg]

/-- C1 witness: reference gene field BRCA1, input gene brca1. -/
theorem C1_match_rule_witness :
    annotRows (pyUpper "brca1") "brca1" [["x", "BRCA1", "T-cell", "2.5"]] =
      .ok [["brca1", "T-cell", "2.5"]] := by
  have h := C1_match_rule "brca1" "x" "BRCA1" "T-cell" "2.5" (mkRat 5 2) rfl (by decide)
  rwa [if_pos (by decide)] at h

theorem annotLine_bad (gu g : String) (row : List String) (f3 : String)
    (hmatch : row.get? 1 = some gu) (h3 : row.get? 3 = some f3)
    (hbad : parseFloat f3 = none) :
    annotLine gu g row = .error () := by
  rw [List.get?_eq_getElem?] at hmatch h3
  simp [annotLine, hmatch, h3, hbad]

theorem annotRows_bad (gu g : String) (content : List (List String)) (row : List String)
    (f3 : String) (hrow : row ∈ content) (hmatch : row.get? 1 = some gu)
    (h3 : row.get? 3 = some f3) (hbad : parseFloat f3 = none) :
    annotRows gu g content = .error () := by
  induction content with
  | nil => simp at hrow
  | cons r rest ih =>
    rw [List.mem_cons] at hrow
    unfold annotRows
    rcases hrow with hr | hr
    · subst hr
      rw [annotLine_bad gu g row f3 hmatch h3 hbad]
    · cases hl : annotLine gu g r with
      | error e => rfl
      | ok l => rw [ih hr]

theorem annotGenes_bad (content : List (List String)) (gl : List String) (g : String)
    (hg : g ∈ gl) (hrows : annotRows (pyUpper g) g content = .error ()) :
    annotGenes content gl = .error () := by
  induction gl with
  | nil => simp at hg
  | cons x xs ih =>
    rw [List.mem_cons] at hg
    unfold annotGenes
    rcases hg with h | h
    · subst h
      rw [hrows]
    · cases hx : annotRows (pyUpper x) x content with
      | error e => rfl
      | ok l => rw [ih h]

/-- C3, counterexample: a reference row whose expression field does not parse
as a float does NOT make the annotator fail when its gene field matches no
input gene: Python's short-circuit skips the conversion, and the annotator
returns normally on a non-empty gene list. -/
theorem C3_counterexample :
    parseFloat "notanum" = none ∧
    gene_annotation ["h", "x\tB\tct\tnotanum"] ["A"] = .ok [] :=
  ⟨rfl, rfl⟩

/-- C3 (amended): a reference row whose expression field does not parse as a
float causes a fatal, uncaught parse failure exactly when it is reached with a
matching gene: whenever some input gene's upper-cased form equals the row's
gene field (index 1), the annotator does not return normally. -/
theorem C3_bad_field (refLines gl : List String) (g : String) (row : List String) (f3 : String)
    (hg : g ∈ gl) (hrow : row ∈ refContent refLines)
    (hmatch : row.get? 1 = some (pyUpper g))
    (h3 : row.get? 3 = some f3) (hbad : parseFloat f3 = none) :
    gene_annotation refLines gl = .error () :=
  annotGenes_bad (refContent refLines) gl g hg
    (annotRows_bad (pyUpper g) g (refContent refLines) row f3 hrow hmatch h3 hbad)

/-- C3 witness: gene a (upper-cased to A) matches the bad row, so the run
aborts. -/
theorem C3_bad_field_witness : gene_annotation ["h", "x\tA\tct\tnotanum"] ["a"] = .error () :=
  C3_bad_field ["h", "x\tA\tct\tnotanum"] ["a"] "a" ["x", "A", "ct", "notanum"] "notanum"
    (by decide) (by decide) (by decide) (by decide) rfl

/-- C5: for a cluster file of one header line and N data rows each with at
least 8 comma-separated fields, the extractor returns exactly N gene symbols
(stripped field 7 of each data row) and exactly N raw rows with the header
discarded, and a field bounded by a leading and a trailing double quote loses
exactly those outer quote characters and nothing else. -/
theorem C5_extraction (hdr : String) (rows : List String)
    (hfields : ∀ l ∈ rows, 8 ≤ (pySplit ',' (pyStripNL l)).length) :
    (∃ genes content, extract_from_seurat (hdr :: rows) = .ok (genes, content) ∧
      genes.length = rows.length ∧ content.length = rows.length ∧
      content = rows.map (fun l => pySplit ',' (pyStripNL l)) ∧
      genes = content.map (fun r => (stripRow r).getD 7 "")) ∧
    ∀ t : String, stripQuote ("\"" ++ t ++ "\"") = t := by
  have hcc : clusterContent (hdr :: rows) = rows.map (fun l => pySplit ',' (pyStripNL l)) := by
    simp [clusterContent]
  have hlen : ∀ r ∈ clusterContent (hdr :: rows), 7 < r.length := by
    intro r hr
    rw [hcc, List.mem_map] at hr
    obtain ⟨l, hl, rfl⟩ := hr
    have := hfields l hl
    omega
  refine ⟨⟨(clusterContent (hdr :: rows)).map (fun r => (stripRow r).getD 7 ""),
    clusterContent (hdr :: rows), ?_, ?_, ?_, hcc, rfl⟩, stripQuote_wrap⟩
  · unfold extract_from_seurat
    rw [extractGenes_total (clusterContent (hdr :: rows)) hlen]
  · rw [List.length_map, hcc, List.length_map]
  · rw [hcc, List.length_map]

set_option maxRecDepth 4000 in
/-- C5 witness: the quote-stripping clause at a concrete wrapped field, via the
theorem applied to a one-row file. -/
theorem C5_extraction_witness : stripQuote ("\"" ++ "BRCA1" ++ "\"") = "BRCA1" :=
  (C5_extraction "h" ["\"1\",\"c1\",\"a\",\"b\",\"c\",\"0.01\",\"clusterA\",\"BRCA1\""]
    (by decide)).2 "BRCA1"

set_option maxRecDepth 4000 in
/-- C6: the threshold filter is inclusive: for a gene and a reference row
whose gene field matches the upper-cased gene, an expression parsing below 1
produces no row, and an expression parsing to exactly 1 produces the row. -/
theorem C6_threshold (g : String) (row : List String) (f3 : String) (q : ℚ)
    (hmatch : row.get? 1 = some (pyUpper g))
    (h3 : row.get? 3 = some f3) (hp : parseFloat f3 = some q) :
    (q < 1 → annotRows (pyUpper g) g [row] = .ok []) ∧
    (q = 1 → annotRows (pyUpper g) g [row] = .ok [[g, row.getD 2 "", f3]]) := by
  constructor
  · intro hlt
    rw [List.get?_eq_getElem?] at hmatch h3
    simp [annotRows, annotLine, hmatch, h3, hp, not_le.mpr hlt]
  · intro h1
    subst h1
    obtain ⟨hl3, _⟩ := List.get?_eq_some.mp h3
    have h2 : row.get? 2 = some (row.getD 2 "") := get?_eq_some_getD row 2 (by omega)
    rw [List.get?_eq_getElem?] at hmatch h3 h2
    generalize hv : row.getD 2 "" = v at h2 ⊢
    simp [annotRows, annotLine, hmatch, h3, hp, h2]

/-- C6 witness: expression exactly 1.0 produces the row; expression 0.5 does
not. -/
theorem C6_threshold_witness :
    annotRows (pyUpper "g1") "g1" [["x", "G1", "T", "1.0"]] = .ok [["g1", "T", "1.0"]] ∧
    annotRows (pyUpper "g1") "g1" [["x", "G1", "T", "0.5"]] = .ok [] := by
  constructor
  · have h := (C6_threshold "g1" ["x", "G1", "T", "1.0"] "1.0" 1 (by decide) (by decide) rfl).2 rfl
    simpa using h
  · exact (C6_threshold "g1" ["x", "G1", "T", "0.5"] "0.5" (mkRat 1 2) (by decide) (by decide)
      rfl).1 (by decide)

/-- C7: the end-to-end example: one cluster data row (p-value 0.01, cluster
clusterA, gene BRCA1, quote-wrapped) and one reference row (BRCA1, T-cell,
2.5) produce exactly one output line, tab-separated, with the expression's
decimal point rewritten to a comma. -/
theorem C7_end_to_end :
    outputLines c7cluster c7ref = .ok ["clusterA\tBRCA1\t0.01\tT-cell\t2,5"] ∧
    pipeline c7cluster c7ref =
      .ok ([⟨"clusterA", "BRCA1", "0.01", "T-cell", mkRat 5 2⟩],
        [["clusterA", "BRCA1", "0.01", "T-cell", "2,5"]]) :=
  ⟨rfl, rfl⟩

/-- C8: the annotator's output is grouped by input gene in input-list order,
and within one gene occurrence the rows appear in reference-file row order:
the output is exactly the concatenation, over the gene list in order, of each
gene's qualifying reference rows in table order. -/
theorem C8_ordering (refLines gl : List String) (A : List (List String))
    (h : gene_annotation refLines gl = .ok A) :
    A = (gl.map (fun g => annotBlock g (refContent refLines))).flatten :=
  annotGenes_ok (refContent refLines) gl A h

/-- C8 witness: a two-gene list over a two-row table. -/
theorem C8_ordering_witness :
    [["brca1", "T-cell", "2.5"], ["g2", "B-cell", "3.5"]] =
      ((["brca1", "g2"].map
        (fun g => annotBlock g (refContent
          ["h", "x\tBRCA1\tT-cell\t2.5", "x\tG2\tB-cell\t3.5"]))).flatten) :=
  C8_ordering ["h", "x\tBRCA1\tT-cell\t2.5", "x\tG2\tB-cell\t3.5"] ["brca1", "g2"]
    [["brca1", "T-cell", "2.5"], ["g2", "B-cell", "3.5"]] rfl

/-- C9: a field consisting of the single double-quote character both starts
and ends with a double quote, so the quote-stripping applied in the extractor
and re-applied in the merge maps it to the empty string. -/
theorem C9_single_quote_field :
    stripQuote "\"" = "" ∧ stripRow ["\""] = [""] ∧
    startsWithQ "\"" = true ∧ endsWithQ "\"" = true :=
  ⟨rfl, rfl, rfl, rfl⟩

theorem annotGenes_append_err (content : List (List String)) (xs ys : List String) (e : Unit)
    (h : annotGenes content xs = .error e) :
    annotGenes content (xs ++ ys) = .error e := by
  induction xs with
  | nil => cases h
  | cons x xs ih =>
    rw [List.cons_append]
    unfold annotGenes at h
    show (match annotRows (pyUpper x) x content with
      | Except.error e => Except.error e
      | Except.ok r =>
        match annotGenes content (xs ++ ys) with
        | Except.error e => Except.error e
        | Except.ok rs => Except.ok (r ++ rs)) = Except.error e
    cases hx : annotRows (pyUpper x) x content with
    | error ea =>
      rw [hx] at h
    | ok r =>
      rw [hx] at h
      cases ha : annotGenes content xs with
      | error e2 =>
        rw [ha] at h
        have h3 : (Except.error e2 : Except Unit (List (List String))) = .error e := h
        injection h3 with h4
        subst h4
        rw [ih ha]
      | ok rs =>
        rw [ha] at h
        have h3 : (Except.ok (r ++ rs) : Except Unit (List (List String))) = .error e := h
        cases h3

theorem annotGenes_append_ok (content : List (List String)) (xs ys : List String)
    (a : List (List String)) (h : annotGenes content xs = .ok a) :
    annotGenes content (xs ++ ys) = (annotGenes content ys).map (fun l2 => a ++ l2) := by
  induction xs generalizing a with
  | nil =>
    simp only [annotGenes] at h
    cases h
    cases hy : annotGenes content ys <;> simp [annotGenes, hy, Except.map]
  | cons x xs ih =>
    rw [List.cons_append]
    unfold annotGenes at h
    show (match annotRows (pyUpper x) x content with
      | Except.error e => Except.error e
      | Except.ok r =>
        match annotGenes content (xs ++ ys) with
        | Except.error e => Except.error e
        | Except.ok rs => Except.ok (r ++ rs)) =
      Except.map (fun l2 => a ++ l2) (annotGenes content ys)
    cases hx : annotRows (pyUpper x) x content with
    | error ea =>
      rw [hx] at h
      have h3 : (Except.error ea : Except Unit (List (List String))) = .ok a := h
      cases h3
    | ok r =>
      rw [hx] at h
      cases ha : annotGenes content xs with
      | error e2 =>
        rw [ha] at h
        have h3 : (Except.error e2 : Except Unit (List (List String))) = .ok a := h
        cases h3
      | ok as =>
        rw [ha] at h
        have h3 : (Except.ok (r ++ as) : Except Unit (List (List String))) = .ok a := h
        injection h3 with h4
        subst h4
        rw [ih as ha]
        cases hy : annotGenes content ys <;> simp [hy, Except.map, List.append_assoc]

/-- C10: the annotator distributes over gene-list concatenation, and a gene
occurring k times contributes k copies of its block of qualifying rows. -/
theorem C10_concat (refLines xs ys : List String) (k : Nat) (g : String)
    (b : List (List String))
    (hb : annotRows (pyUpper g) g (refContent refLines) = .ok b) :
    gene_annotation refLines (xs ++ ys)
      = ( gene_annotation refLines xs).bind
          (fun l1 => ( gene_annotation refLines ys).map (fun l2 => l1 ++ l2)) ∧
    gene_annotation refLines (List.replicate k g) = .ok ((List.replicate k b).flatten) := by
  constructor
  · unfold gene_annotation
    cases hxs : annotGenes (refContent refLines) xs with
    | error e => rw [annotGenes_append_err (refContent refLines) xs ys e hxs]; simp [Except.bind]
    | ok a => rw [annotGenes_append_ok (refContent refLines) xs ys a hxs]; simp [Except.bind]
  · induction k with
    | zero => rfl
    | succ n ih =>
      rw [List.replicate_succ]
      unfold gene_annotation at ih ⊢
      show (match annotRows (pyUpper g) g (refContent refLines) with
        | Except.error e => Except.error e
        | Except.ok r =>
          match annotGenes (refContent refLines) (List.replicate n g) with
          | Except.error e => Except.error e
          | Except.ok rs => Except.ok (r ++ rs)) =
        Except.ok ((b :: List.replicate n b).flatten)
      rw [hb, ih]
      simp

/-- C10 witness: concrete concatenation and a gene repeated twice. -/
theorem C10_concat_witness :
    gene_annotation ["h", "x\tBRCA1\tT-cell\t2.5"] (["brca1"] ++ ["nope"])
      = ( gene_annotation ["h", "x\tBRCA1\tT-cell\t2.5"] ["brca1"]).bind
          (fun l1 => ( gene_annotation ["h", "x\tBRCA1\tT-cell\t2.5"] ["nope"]).map
            (fun l2 => l1 ++ l2)) ∧
    gene_annotation ["h", "x\tBRCA1\tT-cell\t2.5"] (List.replicate 2 "brca1")
      = .ok ((List.replicate 2 [["brca1", "T-cell", "2.5"]]).flatten) :=
  C10_concat ["h", "x\tBRCA1\tT-cell\t2.5"] ["brca1"] ["nope"] 2 "brca1"
    [["brca1", "T-cell", "2.5"]] rfl

theorem pipeline_ok (clusterLines refLines : List String) (ms : List MergedRow)
    (es : List (List String)) (h : pipeline clusterLines refLines = .ok (ms, es)) :
    ∃ genes allRows annots,
      extract_from_seurat clusterLines = .ok (genes, allRows) ∧
      gene_annotation refLines genes = .ok annots ∧
      i_m_annotating annots allRows = .ok (ms, es) := by
  unfold pipeline at h
  cases hx : extract_from_seurat clusterLines with
  | error e =>
    rw [hx] at h
    have h2 : (Except.error e : Except Unit (List MergedRow × List (List String))) =
      Except.ok (ms, es) := h
    cases h2
  | ok p =>
    obtain ⟨genes, allRows⟩ := p
    rw [hx] at h
    have h2 : (match gene_annotation refLines genes with
      | Except.error e => (Except.error e : Except Unit (List MergedRow × List (List String)))
      | Except.ok annots => i_m_annotating annots allRows) = Except.ok (ms, es) := h
    cases hann : gene_annotation refLines genes with
    | error e =>
      rw [hann] at h2
      have h3 : (Except.error e : Except Unit (List MergedRow × List (List String))) =
        Except.ok (ms, es) := h2
      cases h3
    | ok annots =>
      rw [hann] at h2
      exact ⟨genes, allRows, annots, rfl, hann, h2⟩

/-- C4: invariant of every completed run: every emitted MergedRow's gene field
equals the quote-stripped field 7 of some ClusterRow, and every MergedRow's
parsed expression value is at least 1. -/
theorem C4_invariant (clusterLines refLines : List String) (ms : List MergedRow)
    (es : List (List String)) (h : pipeline clusterLines refLines = .ok (ms, es)) :
    ∀ m ∈ ms,
      m.gene ∈ (clusterContent clusterLines).map (fun row => (stripRow row).getD 7 "") ∧
      1 ≤ m.nTPM := by
  obtain ⟨genes, allRows, annots, hx, hann, hmerge⟩ := pipeline_ok clusterLines refLines ms es h
  obtain ⟨hrows, hgenes, hlen⟩ := extract_ok clusterLines genes allRows hx
  have hA := annotGenes_ok (refContent refLines) genes annots hann
  have hM := merge_ok annots allRows ms es hmerge
  intro m hm
  rw [hM, List.mem_flatten] at hm
  obtain ⟨l, hl, hml⟩ := hm
  rw [List.mem_map] at hl
  obtain ⟨row, hrowmem, hleq⟩ := hl
  subst hleq
  rw [List.mem_filterMap] at hml
  obtain ⟨a, hain, hsel⟩ := hml
  rw [hA, List.mem_flatten] at hain
  obtain ⟨bl, hbl, habl⟩ := hain
  rw [List.mem_map] at hbl
  obtain ⟨g2, hg2, hbleq⟩ := hbl
  subst hbleq
  obtain ⟨ha0, q, hpq, hq1⟩ := annotBlock_mem g2 (refContent refLines) a habl
  rw [mergeSel_eq (stripRow row) a g2 ha0] at hsel
  by_cases h7 : (stripRow row).get? 7 = some g2
  · rw [if_pos h7] at hsel
    injection hsel with hsel
    subst hsel
    constructor
    · rw [List.mem_map]
      exact ⟨row, hrows ▸ hrowmem, rfl⟩
    · show 1 ≤ (parseFloat (a.getD 2 "")).getD 0
      rw [hpq]
      exact hq1
  · rw [if_neg h7] at hsel
    cases hsel

/-- C4 witness: the invariant at the single merged row of the end-to-end
example. -/
theorem C4_invariant_witness :
    ((⟨"clusterA", "BRCA1", "0.01", "T-cell", mkRat 5 2⟩ : MergedRow).gene ∈
      (clusterContent c7cluster).map (fun row => (stripRow row).getD 7 "")) ∧
    1 ≤ (⟨"clusterA", "BRCA1", "0.01", "T-cell", mkRat 5 2⟩ : MergedRow).nTPM :=
  C4_invariant c7cluster c7ref [⟨"clusterA", "BRCA1", "0.01", "T-cell", mkRat 5 2⟩]
    [["clusterA", "BRCA1", "0.01", "T-cell", "2,5"]] rfl _ (by simp)

set_option maxRecDepth 8000 in
/-- C2, counterexample: with one gene (BRCA1) having exactly 3 qualifying
reference rows with 3 distinct cell types, appearing in exactly 2 cluster
rows, and no other gene matching any reference row, the merge stage produces
12 MergedRows, not 6: the gene's two occurrences in the extracted gene list
already duplicate its 3 annotation rows, and the merge then pairs each of the
2 cluster rows with all 6 annotation rows. -/
theorem C2_counterexample :
    (refContent c2ref).countP (qualRow (pyUpper "BRCA1")) = 3 ∧
    (((refContent c2ref).filter (qualRow (pyUpper "BRCA1"))).map
      (fun row => row.getD 2 "")).Nodup ∧
    (clusterContent c2cluster).countP (fun r => (stripRow r).getD 7 "" == "BRCA1") = 2 ∧
    (pipeline c2cluster c2ref).toOption.map (fun p => p.1.length) = some 12 :=
  ⟨by rfl, by decide, by rfl, by rfl⟩

/-- C2 (amended): for every pipeline input in which one gene symbol has
exactly 3 qualifying reference rows and appears in exactly 2 cluster rows,
while no other extracted gene matches any reference row, a completed run's
merge stage produces exactly 12 MergedRows (2 occurrences in the gene list x
3 qualifying rows = 6 annotation rows, each matched by both cluster rows). -/
theorem C2_cartesian (clusterLines refLines : List String) (g : String)
    (genes : List String) (allRows : List (List String))
    (hx : extract_from_seurat clusterLines = .ok (genes, allRows))
    (h3 : (refContent refLines).countP (qualRow (pyUpper g)) = 3)
    (_hdist : (((refContent refLines).filter (qualRow (pyUpper g))).map
      (fun row => row.getD 2 "")).Nodup)
    (h2 : genes.count g = 2)
    (hother : ∀ g2 ∈ genes, g2 ≠ g → ∀ row ∈ refContent refLines,
      row.get? 1 ≠ some (pyUpper g2))
    (hok : ∃ p, pipeline clusterLines refLines = .ok p) :
    (pipeline clusterLines refLines).toOption.map (fun p => p.1.length) = some 12 := by
  obtain ⟨⟨ms, es⟩, hp⟩ := hok
  suffices hms : ms.length = 12 by simp [hp, Except.toOption, hms]
  obtain ⟨genes2, allRows2, annots, hx2, hann, hmerge⟩ := pipeline_ok clusterLines refLines ms es hp
  rw [hx] at hx2
  injection hx2 with hx2
  injection hx2 with hg2 ha2
  subst hg2
  subst ha2
  obtain ⟨hrows, hgenes, hlen7⟩ := extract_ok clusterLines genes allRows hx
  have hA := annotGenes_ok (refContent refLines) genes annots hann
  have hM := merge_ok annots allRows ms es hmerge
  have hblocks : ∀ g2 ∈ genes, annotBlock g2 (refContent refLines) =
      if g2 = g then annotBlock g (refContent refLines) else [] := by
    intro g2 hg2
    by_cases hgg : g2 = g
    · rw [if_pos hgg, hgg]
    · rw [if_neg hgg]
      exact annotBlock_nil g2 (refContent refLines) (hother g2 hg2 hgg)
  have hBlen : (annotBlock g (refContent refLines)).length = 3 := by
    rw [annotBlock_length]
    exact h3
  have hall : ∀ a ∈ annots, a.get? 0 = some g := by
    intro a ha
    rw [hA, List.mem_flatten] at ha
    obtain ⟨bl, hbl, habl⟩ := ha
    rw [List.mem_map] at hbl
    obtain ⟨g2, hg2, hbleq⟩ := hbl
    subst hbleq
    rw [hblocks g2 hg2] at habl
    by_cases hgg : g2 = g
    · rw [if_pos hgg] at habl
      exact (annotBlock_mem g (refContent refLines) a habl).1
    · rw [if_neg hgg] at habl
      simp at habl
  have hAlen : annots.length = 6 := by
    rw [hA, List.length_flatten, List.map_map]
    have hpt : ∀ g2 ∈ genes,
        (List.length ∘ fun g2 => annotBlock g2 (refContent refLines)) g2 =
        (fun g2 => if (g2 == g) then 3 else 0) g2 := by
      intro g2 hg2
      simp only [Function.comp]
      rw [hblocks g2 hg2]
      by_cases hgg : g2 = g
      · simp [hgg, hBlen]
      · simp [hgg]
    rw [List.map_congr_left hpt, sum_map_ite genes (fun g2 => g2 == g) 3]
    have hcnt : genes.countP (fun g2 => g2 == g) = genes.count g := by
      rw [List.count_eq_countP]
    rw [hcnt, h2]
  rw [hM, List.length_flatten, List.map_map]
  have hpt2 : ∀ row ∈ allRows,
      (List.length ∘ fun row => annots.filterMap (mergeSel (stripRow row))) row =
      (fun row => if ((stripRow row).getD 7 "" == g) then 6 else 0) row := by
    intro row hrow
    simp only [Function.comp]
    have h7 : (stripRow row).get? 7 = some ((stripRow row).getD 7 "") := by
      apply get?_eq_some_getD
      have := hlen7 row hrow
      simpa [stripRow]
    rw [filterMap_mergeSel_length (stripRow row) annots g hall, h7, hAlen]
    by_cases hgg : (stripRow row).getD 7 "" = g
    · simp [hgg]
    · simp [hgg]
  rw [List.map_congr_left hpt2,
    sum_map_ite allRows (fun row => (stripRow row).getD 7 "" == g) 6]
  have hc : allRows.countP (fun row => (stripRow row).getD 7 "" == g) = 2 := by
    have hcm : genes.count g = allRows.countP (fun row => (stripRow row).getD 7 "" == g) := by
      rw [hgenes, List.count_eq_countP, List.countP_map]
      rfl
    rw [← hcm, h2]
  rw [hc]

set_option maxRecDepth 8000 in
/-- C2 witness: the amended count at the concrete two-cluster-row,
three-reference-row input. -/
theorem C2_cartesian_witness :
    (pipeline c2cluster c2ref).toOption.map (fun p => p.1.length) = some 12 :=
  C2_cartesian c2cluster c2ref "BRCA1" ["BRCA1", "BRCA1"]
    [["\"1\"", "\"c1\"", "\"a\"", "\"b\"", "\"c\"", "\"0.01\"", "\"cl1\"", "\"BRCA1\""],
     ["\"2\"", "\"c2\"", "\"a\"", "\"b\"", "\"c\"", "\"0.02\"", "\"cl2\"", "\"BRCA1\""]]
    (by rfl) (by rfl) (by decide) (by decide) (by decide) ⟨_, rfl⟩
